import Mathlib

/-!
# Verification of the BAPCtools judging engine (`bin/run.py`)

This file gives a shallow embedding, in Lean 4, of the execution & verdict
engine of `bin/run.py`: the per-testcase judgment (`Run.run`,
`Run._validate_output`, `Run.__init__`'s feedback-directory cleaning), the
submission-level aggregation (`Submission.run_all_testcases` and its inner
`process_run`), the lazy-judging early abort, and the expected-verdict
computation (`Submission._get_expected_verdicts`).

Helpers imported by `run.py` from `util.py`, `config.py` and `parallel.py`
(the `ExecStatus`/`ExecResult` types, the `error`/`warn` counters, the
verdict tables `config.VERDICTS` / `config.PRIORITY` /
`config.MAX_PRIORITY_VERDICT`, and the parallel queue) are not part of the
sources under review; those are modelled from the specification, and each
such definition says so in its doc comment.

Machine conventions: Python floats (durations, time limits) are embedded as
`ℚ`; the comparisons performed by the code are exact in both settings.
Python strings are embedded as `String` (Python's lexicographic string
comparison by code point coincides with `String`'s linear order).
Filesystem directories are embedded as lists of named entries.
-/

namespace BAPC

/-- The verdict enumeration carried by a judged testcase
(`result.verdict` in `run.py`). -/
inductive Verdict where
  | ACCEPTED
  | WRONG_ANSWER
  | TIME_LIMIT_EXCEEDED
  | RUN_TIME_ERROR
  | VALIDATOR_CRASH
deriving DecidableEq

/-- The string (Python) representation of a verdict, as stored in
`result.verdict`. -/
def verdictName : Verdict → String
  | .ACCEPTED => "ACCEPTED"
  | .WRONG_ANSWER => "WRONG_ANSWER"
  | .TIME_LIMIT_EXCEEDED => "TIME_LIMIT_EXCEEDED"
  | .RUN_TIME_ERROR => "RUN_TIME_ERROR"
  | .VALIDATOR_CRASH => "VALIDATOR_CRASH"

/-- Modelled from the spec: `config.PRIORITY` lives in `config.py`, which is
not under `src/`.  The spec (§3) fixes that every verdict carries a
numeric priority used for aggregation, higher = worse / more informative,
with `ACCEPTED` lowest; engine/setup failures (`VALIDATOR_CRASH`, §7) are
the worst class; and the lazy-judging contract (§4.5, §8 — mirrored by the
live `TIME_LIMIT_EXCEEDED` guard of `run.py` lines 321–323) requires a
hard-timeout `TIME_LIMIT_EXCEEDED` to be realizable as the
maximal-priority outcome.  Concrete values realising that order, with
`TIME_LIMIT_EXCEEDED` sharing the maximal priority. -/
def PRIORITY : Verdict → ℤ
  | .ACCEPTED => 1
  | .WRONG_ANSWER => 3
  | .RUN_TIME_ERROR => 4
  | .TIME_LIMIT_EXCEEDED => 6
  | .VALIDATOR_CRASH => 6

/-- All verdict values, in declaration order. -/
def allVerdicts : List Verdict :=
  [.ACCEPTED, .WRONG_ANSWER, .TIME_LIMIT_EXCEEDED, .RUN_TIME_ERROR, .VALIDATOR_CRASH]

/-- Modelled from the spec: `config.MAX_PRIORITY_VERDICT` lives in
`config.py`, which is not under `src/`.  Per the spec (§4.5) it is the
maximal-priority class of verdicts, i.e. the verdicts whose priority is the
maximum over all verdicts — here `TIME_LIMIT_EXCEEDED` and
`VALIDATOR_CRASH`. -/
def MAX_PRIORITY_VERDICT : List Verdict :=
  allVerdicts.filter (fun v => allVerdicts.all (fun w => PRIORITY w ≤ PRIORITY v))

/-- Modelled from the spec: `ExecStatus` lives in `util.py`, which is not
under `src/`.  The constructors are the ones `run.py` references
(`ExecStatus.ERROR`, `ExecStatus.REJECTED`, `ExecStatus.TIMEOUT`) together
with the accepting status; per the spec (§4.2) the status is truthy
exactly for an accepting run, so Python's `if result.status:` is
`ExecStatus.toBool`. -/
inductive ExecStatus where
  | ACCEPTED
  | REJECTED
  | ERROR
  | TIMEOUT
deriving DecidableEq

/-- Python truthiness of an `ExecStatus` (spec §4.2: the boolean status
encodes accept vs anything else). -/
def ExecStatus.toBool : ExecStatus → Bool
  | .ACCEPTED => true
  | _ => false

/-- Modelled from the spec: `ExecResult` lives in `util.py`, which is not
under `src/`.  Fields are the ones `run.py` reads and writes, matching the
spec's ExecutionResult record (§3): status, exit code (absent for a
synthesised result), wall-clock duration, whether the hard timeout killed
the process, and captured stderr/stdout (absent when not captured). -/
structure ExecResult where
  status : ExecStatus
  returncode : Option ℤ
  duration : ℚ
  timeout_expired : Bool
  err : Option String
  out : Option String
deriving DecidableEq

/-- A judged result: the `ExecResult` as amended by `Run.run` with a
`verdict` and (possibly) a `print_verdict_` display override. -/
structure Judged where
  result : ExecResult
  verdict : Verdict
  print_verdict_ : Option String
deriving DecidableEq

/-- Modelled from the spec: `ExecResult.print_verdict` lives in `util.py`,
which is not under `src/`.  The displayed verdict label: the override set
by `Run.run` (`'TLE (aborted)'`, spec §8 example) when present, otherwise
the verdict's own name. -/
def Judged.print_verdict (j : Judged) : String :=
  j.print_verdict_.getD (verdictName j.verdict)

/-- Python's `str(result.returncode)` where `returncode` may be `None`. -/
def strReturncode : Option ℤ → String
  | some rc => toString rc
  | none => "None"

/-- The outcome of one non-interactive `Run.run` call: the judged result,
the value of the global error counter `config.n_error` afterwards, and
whether control reached the `self._validate_output()` call (line 57). -/
structure RunOutput where
  judged : Judged
  n_error : ℕ
  reached_validation : Bool
deriving DecidableEq

/-- Embedding of the non-interactive branch of `Run.run`
(`run.py` lines 43–71).

Inputs: the problem's soft time limit (`self.problem.settings.timelimit`),
the `--error` flag (`config.args.error`), the submission's `ExecResult`
(returned by `self.submission.run`), the value `self._validate_output()`
would return (`none` exactly when no output validators are configured),
and the global error counter `config.n_error` before the call.

`util.error` (called on the no-validator path) is modelled from the spec:
`util.py` is not under `src/`, and the spec (§7) has engine/setup failures
increment the distinct global error counter. -/
def Run.run (timelimit : ℚ) (args_error : Bool) (subRes : ExecResult)
    (validate_output : Option ExecResult) (n_error : ℕ) : RunOutput :=
  if timelimit < subRes.duration then
    { judged := { result := subRes, verdict := .TIME_LIMIT_EXCEEDED,
                  print_verdict_ :=
                    if subRes.timeout_expired then some "TLE (aborted)" else none },
      n_error := n_error, reached_validation := false }
  else if subRes.status = .ERROR then
    let newErr :=
      if args_error then
        "Exited with code " ++ strReturncode subRes.returncode ++ ":\n" ++ subRes.err.getD ""
      else
        "Exited with code " ++ strReturncode subRes.returncode
    { judged := { result := { subRes with err := some newErr },
                  verdict := .RUN_TIME_ERROR, print_verdict_ := none },
      n_error := n_error, reached_validation := false }
  else
    let duration := subRes.duration
    match validate_output with
    | none =>
        -- `error(f'No output validators found …')` increments `config.n_error`,
        -- then `ExecResult(None, ExecStatus.REJECTED, 0, False, None, None)`.
        { judged := { result := { status := .REJECTED, returncode := none, duration := 0,
                                  timeout_expired := false, err := none, out := none },
                      verdict := .VALIDATOR_CRASH, print_verdict_ := none },
          n_error := n_error + 1, reached_validation := true }
    | some v =>
        let v := { v with duration := duration }
        if v.status.toBool then
          { judged := { result := v, verdict := .ACCEPTED, print_verdict_ := none },
            n_error := n_error, reached_validation := true }
        else if v.status = .REJECTED then
          { judged := { result := v, verdict := .WRONG_ANSWER, print_verdict_ := none },
            n_error := n_error, reached_validation := true }
        else
          { judged := { result := v, verdict := .VALIDATOR_CRASH, print_verdict_ := none },
            n_error := n_error + 1, reached_validation := true }

/-- Embedding of `Run.run` including the trailing `.out`-file cleanup
(`run.py` lines 73–79): after the verdict is computed, the produced output
file is deleted when `--error` was not passed, the file exists, and its
size exceeds `1_000_000_000` bytes.  The output file is modelled as
`Option ℕ`: `some size` when `self.out_path.is_file()`, `none` otherwise;
deletion sets it to `none`. -/
def Run.runWithCleanup (timelimit : ℚ) (args_error : Bool) (subRes : ExecResult)
    (validate_output : Option ExecResult) (n_error : ℕ) (out_file : Option ℕ) :
    RunOutput × Option ℕ :=
  let o := Run.run timelimit args_error subRes validate_output n_error
  let out_file' :=
    match out_file with
    | some size => if ¬args_error ∧ 1000000000 < size then none else some size
    | none => none
  (o, out_file')

/-! ## Feedback directory (`Run.__init__`, `Run._validate_output`) -/

/-- One entry of the per-testcase feedback directory: a name, whether it is
a regular file (`Path.is_file()`), and its text content (meaningful for
files). -/
structure FsEntry where
  name : String
  isFile : Bool
  content : String
deriving DecidableEq

/-- A directory is its list of entries (`Path.iterdir()` order). -/
abbrev FeedbackDir := List FsEntry

/-- `(dir / n).is_file()` followed by `read_text()`: the content of the
entry named `n`, provided it exists and is a regular file. -/
def findFile (d : FeedbackDir) (n : String) : Option String :=
  (d.find? (fun e => e.name == n && e.isFile)).map FsEntry.content

/-- `(dir / n).unlink()`: remove the entry at path `n`. -/
def unlinkName (d : FeedbackDir) (n : String) : FeedbackDir :=
  d.eraseP (fun e => e.name == n)

/-- `shutil.rmtree(dir / n)`: remove the (non-file) entry at path `n`. -/
def rmtreeName (d : FeedbackDir) (n : String) : FeedbackDir :=
  d.eraseP (fun e => e.name == n)

/-- The cleaning loop body of `Run.__init__` (lines 30–34): for an entry
`f` of the directory snapshot, `f.unlink()` when `f.is_file()`, else
`shutil.rmtree(f)`. -/
def cleanStep (acc : FeedbackDir) (f : FsEntry) : FeedbackDir :=
  if f.isFile then unlinkName acc f.name else rmtreeName acc f.name

/-- Embedding of the feedback-directory part of `Run.__init__`
(lines 27–34): `self.feedbackdir.mkdir(exist_ok=True, parents=True)`
(the directory state is `none` when the directory does not exist yet;
`mkdir` makes it an empty one), then every entry of the directory is
removed, iterating over the initial snapshot. -/
def Run.initFeedbackdir (st : Option FeedbackDir) : FeedbackDir :=
  let d := st.getD []
  d.foldl cleanStep d

/-- Embedding of the feedback-file handling of `Run._validate_output`
(lines 95–110), starting from the validator's own `ExecResult.err`
(`ret.err`) and the feedback directory contents after the validator ran.
`nVals` is `len(output_validators)` (the surrounding `assert` forces it to
`1`) and `vName` is `validator.name`.  Returns the final `ret.err`
together with the directory contents after the deletions. -/
def Run.validate_output_feedback (vName : String) (nVals : ℕ) (err0 : Option String)
    (d : FeedbackDir) : String × FeedbackDir :=
  -- `if ret.err is None: ret.err = ''`
  let err := err0.getD ""
  let s1 : String × FeedbackDir :=
    match findFile d "judgemessage.txt" with
    | some t => (err ++ t, unlinkName d "judgemessage.txt")
    | none => (err, d)
  let s2 : String × FeedbackDir :=
    match findFile s1.2 "judgeerror.txt" with
    | some t => (t, unlinkName s1.2 "judgeerror.txt")
    | none => s1
  let finalErr :=
    if s2.1 ≠ "" then (if 1 < nVals then vName ++ ": " else "") ++ s2.1 else s2.1
  (finalErr, s2.2)

/-! ## Submission-level aggregation (`Submission.run_all_testcases`) -/

/-- The running best-verdict tuple of `run_all_testcases`:
`(priority, verdict, print_verdict, duration)` (line 248), ordered exactly
as Python orders 4-tuples — lexicographically.  The two string components
are embedded by their character lists: `String`'s order *is* the
lexicographic order on `String.data`, which matches Python's code-point
comparison of strings, and the list form lets proofs compute. -/
abbrev VTuple := ℤ ×ₗ List Char ×ₗ List Char ×ₗ ℚ

/-- Per-testcase data entering the aggregation: the judged verdict, its
display label (`result.print_verdict()`), and the run's duration. -/
structure TCResult where
  verdict : Verdict
  printVerdict : String
  duration : ℚ
deriving DecidableEq

/-- The last three components of a `new_verdict` tuple
(everything after the priority). -/
def newVerdictRest (r : TCResult) : List Char ×ₗ List Char ×ₗ ℚ :=
  toLex ((verdictName r.verdict).data, toLex (r.printVerdict.data, r.duration))

/-- `new_verdict` as computed by `process_run` (lines 260–265). -/
def newVerdictTuple (r : TCResult) : VTuple :=
  toLex (PRIORITY r.verdict, newVerdictRest r)

/-- The initial best-verdict tuple
`(-100, 'ACCEPTED', 'ACCEPTED', 0)` (line 248). -/
def initVerdictTuple : VTuple :=
  toLex ((-100 : ℤ), toLex ("ACCEPTED".data, toLex ("ACCEPTED".data, (0 : ℚ))))

/-- The update of lines 266–268: `if new_verdict > verdict: verdict =
new_verdict`. -/
def verdictUpdate (cur new : VTuple) : VTuple :=
  if cur < new then new else cur

/-- The best-verdict tuple after all results of `rs` (in completion order)
have been folded through `process_run`'s update. -/
def submissionTuple (rs : List TCResult) : VTuple :=
  rs.foldl (fun cur r => verdictUpdate cur (newVerdictTuple r)) initVerdictTuple

/-- The verdict component of a best-verdict tuple (`verdict[1]`,
assigned to `self.verdict` on line 333). -/
def tupleVerdict (t : VTuple) : String :=
  ((ofLex (ofLex t).2).1).asString

/-- The priority component of a best-verdict tuple (`verdict[0]`). -/
def tuplePriority (t : VTuple) : ℤ :=
  (ofLex t).1

/-- The update of lines 266–268 together with `verdict_run = run`:
state is `(best tuple, representative run)`, a new result is
`(its tuple, its run)`. -/
def verdictRunUpdate (s : VTuple × Option ℕ) (p : VTuple × ℕ) : VTuple × Option ℕ :=
  if s.1 < p.1 then (p.1, some p.2) else s

/-- Best tuple and representative run after folding the indexed results
`rs` in completion order (initially `verdict_run = None`, line 249). -/
def submissionTupleRun (rs : List (TCResult × ℕ)) : VTuple × Option ℕ :=
  rs.foldl (fun s p => verdictRunUpdate s (newVerdictTuple p.1, p.2)) (initVerdictTuple, none)

/-! ## Lazy judging (`process_run` lines 314–326) -/

/-- The decision of lines 314–326: after reporting a result, abort the
queue (`p.abort()`) unless verbose/table reporting was requested, the
verdict is not in the maximal-priority class, or it is a
`TIME_LIMIT_EXCEEDED` that was not killed by the hard timeout. -/
def lazyAbortDecision (verbose table : Bool) (verdict : Verdict)
    (timeout_expired : Bool) : Bool :=
  if verbose || table then false
  else if ¬ verdict ∈ MAX_PRIORITY_VERDICT then false
  else if verdict = .TIME_LIMIT_EXCEEDED && !timeout_expired then false
  else true

/-- The verdict-relevant data of one completed testcase judgment, as seen
by the lazy-judging check. -/
structure TCJudgment where
  verdict : Verdict
  timeout_expired : Bool
deriving DecidableEq

/-- Modelled from the spec: the parallel queue (`parallel.new_queue`,
`p.abort`) lives in `parallel.py`, which is not under `src/`.  Per the
spec (§4.5), aborting cancels all not-yet-started judgments, so the
processed judgments are the prefix of the queue up to and including the
first result whose `lazyAbortDecision` is positive. -/
def runQueue (verbose table : Bool) : List TCJudgment → List TCJudgment
  | [] => []
  | j :: rest =>
      j :: (if lazyAbortDecision verbose table j.verdict j.timeout_expired then []
            else runQueue verbose table rest)

/-! ## Expected verdicts (`Submission._get_expected_verdicts`) -/

/-- Modelled from the spec: `config.VERDICTS` lives in `config.py`, which
is not under `src/`.  Per the spec (§3) it is the fixed enumeration of
verdict names. -/
def VERDICTS : List String :=
  allVerdicts.map verdictName

/-- Python's `str.upper()`, embedded character-wise
(`String.toUpper` is the same map, written on `String.data` so that it
evaluates in the kernel). -/
def strUpper (s : String) : String :=
  ⟨s.data.map Char.toUpper⟩

/-- The `domjudge_verdict_map` dictionary (lines 144–152): `none` when the
key is absent, `some none` for the entries mapped to Python `None`,
`some (some v)` for a translated verdict. -/
def domjudge_verdict_map (s : String) : Option (Option String) :=
  if s = "CORRECT" then some (some "ACCEPTED")
  else if s = "WRONG-ANSWER" then some (some "WRONG_ANSWER")
  else if s = "TIMELIMIT" then some (some "TIME_LIMIT_EXCEEDED")
  else if s = "RUN-ERROR" then some (some "RUN_TIME_ERROR")
  else if s = "NO-OUTPUT" then some (some "WRONG_ANSWER")
  else if s = "CHECK-MANUALLY" then some none
  else if s = "COMPILER-ERROR" then some none
  else none

/-- The inner argument loop of `_get_expected_verdicts` (lines 169–179):
each argument is first translated through `domjudge_verdict_map` (a `None`
translation is skipped); an argument not in `config.VERDICTS` raises
`error(...)` (incrementing the global error counter) and is skipped;
valid arguments are appended to the verdict list. -/
def parseExpectedArgs (args : List String) (n_error : ℕ) : List String × ℕ :=
  args.foldl
    (fun s arg =>
      match domjudge_verdict_map arg with
      | some none => s
      | some (some v) => if v ∈ VERDICTS then (s.1 ++ [v], s.2) else (s.1, s.2 + 1)
      | none => if arg ∈ VERDICTS then (s.1 ++ [arg], s.2) else (s.1, s.2 + 1))
    ([], n_error)

/-- The file-scanning loop of `_get_expected_verdicts` (lines 161–184).
Each source file is abstracted to `Option (List String)`: `none` when the
file is binary (`UnicodeDecodeError`) or the upper-cased text does not
contain the `@EXPECTED_RESULTS@: ` key (`ValueError` from `.index`), and
`some args` when the key occurs, `args` being the stripped comma-separated
arguments up to the end of that line.  The loop `break`s after the first
file in which the key was found. -/
def scanExpectedResults : List (Option (List String)) → ℕ → List String × ℕ
  | [], n => ([], n)
  | none :: fs, n => scanExpectedResults fs n
  | some args :: _, n => parseExpectedArgs args n

/-- Embedding of `_get_expected_verdicts` (lines 136–202).
`files` abstracts the scanned source files (see `scanExpectedResults`),
`pathParts` is `self.path.parts`, `shortPathHead` is
`self.short_path.parts[0]`, and `n_error`/`n_warn` are the global
counters (`util.error` / `util.warn` increment them; modelled from the
spec (§5, §7), `util.py` not being under `src/`).
Returns the computed verdict list and both counters. -/
def get_expected_verdicts (files : List (Option (List String)))
    (pathParts : List String) (shortPathHead : String) (n_error n_warn : ℕ) :
    List String × ℕ × ℕ :=
  let s := scanExpectedResults files n_error
  let verdicts := s.1
  let st : List String × ℕ × ℕ :=
    if 3 ≤ pathParts.length ∧ pathParts.getD (pathParts.length - 3) "" = "submissions" then
      let subdir := strUpper shortPathHead
      if subdir ∈ VERDICTS then
        ([subdir], s.2, if verdicts.length ≠ 0 then n_warn + 1 else n_warn)
      else
        (verdicts, if verdicts.length = 0 then s.2 + 1 else s.2, n_warn)
    else
      (verdicts, s.2, n_warn)
  (if st.1.length = 0 then ["ACCEPTED"] else st.1, st.2.1, st.2.2)

/-! ## Helper lemmas: folding `max` over a list -/

theorem verdictUpdate_eq_max (a b : VTuple) : verdictUpdate a b = max a b := by
  unfold verdictUpdate
  rcases lt_or_ge a b with h | h
  · rw [if_pos h, max_eq_right h.le]
  · rw [if_neg (not_lt.mpr h), max_eq_left h]

theorem submissionTuple_eq_foldl_max (rs : List TCResult) :
    submissionTuple rs = (rs.map newVerdictTuple).foldl max initVerdictTuple := by
  unfold submissionTuple
  rw [List.foldl_map]
  simp only [verdictUpdate_eq_max]

theorem foldl_max_mem {α : Type} [LinearOrder α] (b : α) (l : List α) :
    l.foldl max b = b ∨ l.foldl max b ∈ l := by
  induction l generalizing b with
  | nil => exact Or.inl rfl
  | cons x l ih =>
      rcases ih (max b x) with h | h
      · rcases max_choice b x with hb | hx
        · exact Or.inl (by rw [List.foldl_cons, h, hb])
        · exact Or.inr (by rw [List.foldl_cons, h, hx]; exact List.mem_cons_self x l)
      · exact Or.inr (List.mem_cons_of_mem x h)

theorem le_foldl_max {α : Type} [LinearOrder α] (b : α) (l : List α) :
    b ≤ l.foldl max b ∧ ∀ x ∈ l, x ≤ l.foldl max b := by
  induction l generalizing b with
  | nil => exact ⟨le_refl b, by intro x hx; exact absurd hx (List.not_mem_nil x)⟩
  | cons y l ih =>
      obtain ⟨h1, h2⟩ := ih (max b y)
      refine ⟨le_trans (le_max_left b y) h1, ?_⟩
      intro x hx
      rcases List.mem_cons.mp hx with rfl | hx
      · exact le_trans (le_max_right b x) h1
      · exact h2 x hx

theorem foldl_max_perm {α : Type} [LinearOrder α] {l₁ l₂ : List α} (h : l₁.Perm l₂) (b : α) :
    l₁.foldl max b = l₂.foldl max b := by
  haveI : RightCommutative (fun (x y : α) => max x y) :=
    ⟨fun c a₁ a₂ => by rw [max_assoc, max_comm a₁ a₂, ← max_assoc]⟩
  exact h.foldl_eq b

theorem tuplePriority_mono {a b : VTuple} (h : a ≤ b) :
    tuplePriority a ≤ tuplePriority b := by
  rcases (Prod.Lex.le_iff (ofLex a) (ofLex b)).mp h with h1 | ⟨h1, _⟩
  · exact le_of_lt h1
  · exact le_of_eq h1

theorem one_le_PRIORITY (v : Verdict) : 1 ≤ PRIORITY v := by
  cases v <;> decide

/-! ## C1 -/

/-- C1: the submission-level verdict computed by `run_all_testcases` is the
maximum-priority verdict among the judged testcases (`ACCEPTED` when no
testcase was judged), and the aggregate best-verdict tuple is the same for
every completion order of the testcase judgments: the per-result update of
`process_run` is a fold of the (commutative, associative) lexicographic
`max`. -/
theorem run_all_testcases_aggregate (rs rs' : List TCResult) (hperm : rs.Perm rs') :
    submissionTuple rs = submissionTuple rs' ∧
    (rs = [] → tupleVerdict (submissionTuple rs) = "ACCEPTED") ∧
    (rs ≠ [] → ∃ r ∈ rs, tupleVerdict (submissionTuple rs) = verdictName r.verdict ∧
      ∀ r' ∈ rs, PRIORITY r'.verdict ≤ PRIORITY r.verdict) := by
  refine ⟨?_, ?_, ?_⟩
  · rw [submissionTuple_eq_foldl_max, submissionTuple_eq_foldl_max]
    exact foldl_max_perm (hperm.map newVerdictTuple) initVerdictTuple
  · rintro rfl
    rfl
  · intro hne
    rw [submissionTuple_eq_foldl_max]
    have hmem := foldl_max_mem initVerdictTuple (rs.map newVerdictTuple)
    have hub := (le_foldl_max initVerdictTuple (rs.map newVerdictTuple)).2
    rcases hmem with h | h
    · exfalso
      obtain ⟨r, hr⟩ := List.exists_mem_of_ne_nil rs hne
      have hle : newVerdictTuple r ≤ (rs.map newVerdictTuple).foldl max initVerdictTuple :=
        hub _ (List.mem_map_of_mem newVerdictTuple hr)
      rw [h] at hle
      have h1 : (1 : ℤ) ≤ tuplePriority (newVerdictTuple r) := one_le_PRIORITY r.verdict
      have h2 := tuplePriority_mono hle
      have h3 : tuplePriority initVerdictTuple = -100 := rfl
      rw [h3] at h2
      linarith
    · obtain ⟨r, hr, hrt⟩ := List.mem_map.mp h
      refine ⟨r, hr, ?_, ?_⟩
      · rw [← hrt]
        rfl
      · intro r' hr'
        have hle := tuplePriority_mono (hub _ (List.mem_map_of_mem newVerdictTuple hr'))
        rw [← hrt] at hle
        exact hle

/-- Witness for C1 at a concrete two-testcase submission. -/
theorem run_all_testcases_aggregate_witness :
    submissionTuple [⟨.ACCEPTED, "ACCEPTED", 1⟩, ⟨.WRONG_ANSWER, "WRONG_ANSWER", 2⟩]
        = submissionTuple [⟨.WRONG_ANSWER, "WRONG_ANSWER", 2⟩, ⟨.ACCEPTED, "ACCEPTED", 1⟩] ∧
    ∃ r ∈ ([⟨.ACCEPTED, "ACCEPTED", 1⟩, ⟨.WRONG_ANSWER, "WRONG_ANSWER", 2⟩] : List TCResult),
      tupleVerdict (submissionTuple [⟨.ACCEPTED, "ACCEPTED", 1⟩, ⟨.WRONG_ANSWER, "WRONG_ANSWER", 2⟩])
          = verdictName r.verdict ∧
      ∀ r' ∈ ([⟨.ACCEPTED, "ACCEPTED", 1⟩, ⟨.WRONG_ANSWER, "WRONG_ANSWER", 2⟩] : List TCResult),
        PRIORITY r'.verdict ≤ PRIORITY r.verdict := by
  have h := run_all_testcases_aggregate
    [⟨.ACCEPTED, "ACCEPTED", 1⟩, ⟨.WRONG_ANSWER, "WRONG_ANSWER", 2⟩]
    [⟨.WRONG_ANSWER, "WRONG_ANSWER", 2⟩, ⟨.ACCEPTED, "ACCEPTED", 1⟩]
    (List.Perm.swap _ _ _)
  exact ⟨h.1, h.2.2 (by simp)⟩

/-! ## C2 -/

/-- Counterexample to C2: two judged testcases with verdicts of equal
priority (both `TIME_LIMIT_EXCEEDED`), where the later result has a larger
duration.  `process_run`'s comparison `new_verdict > verdict` is on the
whole `(priority, verdict, print_verdict, duration)` tuple, so the later
equal-priority result *does* replace the held best-verdict tuple and
becomes the reported representative run (index `1`, not the
first-encountered index `0`). -/
theorem equal_priority_tie_replaced :
    PRIORITY Verdict.TIME_LIMIT_EXCEEDED = PRIORITY Verdict.TIME_LIMIT_EXCEEDED ∧
    submissionTupleRun
        [(⟨.TIME_LIMIT_EXCEEDED, "TIME_LIMIT_EXCEEDED", 1⟩, 0),
         (⟨.TIME_LIMIT_EXCEEDED, "TIME_LIMIT_EXCEEDED", 2⟩, 1)]
      = (newVerdictTuple ⟨.TIME_LIMIT_EXCEEDED, "TIME_LIMIT_EXCEEDED", 2⟩, some 1) ∧
    (newVerdictTuple ⟨.TIME_LIMIT_EXCEEDED, "TIME_LIMIT_EXCEEDED", 2⟩, some (1 : ℕ)) ≠
      (newVerdictTuple ⟨.TIME_LIMIT_EXCEEDED, "TIME_LIMIT_EXCEEDED", 1⟩, some (0 : ℕ)) := by
  refine ⟨rfl, by decide, by decide⟩

/-- C2 as amended: when a new result has the same verdict priority as the
held best-verdict tuple, it replaces that tuple (and the representative
run) exactly when its remaining components — verdict string, displayed
verdict, duration — compare lexicographically greater; only ties on the
entire tuple keep the first-encountered result. -/
theorem equal_priority_replacement_iff (a b : TCResult) (r : Option ℕ) (i : ℕ)
    (h : PRIORITY a.verdict = PRIORITY b.verdict) :
    verdictRunUpdate (newVerdictTuple a, r) (newVerdictTuple b, i)
      = (if newVerdictRest a < newVerdictRest b
         then (newVerdictTuple b, some i) else (newVerdictTuple a, r)) := by
  have hlt : newVerdictTuple a < newVerdictTuple b ↔ newVerdictRest a < newVerdictRest b := by
    unfold newVerdictTuple
    rw [Prod.Lex.lt_iff]
    simp [h]
  unfold verdictRunUpdate
  by_cases hc : newVerdictRest a < newVerdictRest b
  · rw [if_pos (hlt.mpr hc), if_pos hc]
  · rw [if_neg (fun hx => hc (hlt.mp hx)), if_neg hc]

/-- Witness for the amended C2 at concrete equal-priority results. -/
theorem equal_priority_replacement_iff_witness :
    verdictRunUpdate
        (newVerdictTuple ⟨.WRONG_ANSWER, "WRONG_ANSWER", 1⟩, some 0)
        (newVerdictTuple ⟨.WRONG_ANSWER, "WRONG_ANSWER", 3⟩, 1)
      = (newVerdictTuple ⟨.WRONG_ANSWER, "WRONG_ANSWER", 3⟩, some 1) := by
  rw [equal_priority_replacement_iff ⟨.WRONG_ANSWER, "WRONG_ANSWER", 1⟩
    ⟨.WRONG_ANSWER, "WRONG_ANSWER", 3⟩ (some 0) 1 rfl]
  rw [if_pos (by decide)]

/-! ## C3 -/

/-- C3: for every non-interactive testcase run, a duration above the soft
time limit yields `TIME_LIMIT_EXCEEDED` regardless of the exit status,
with the displayed verdict `"TLE (aborted)"` exactly when the hard timeout
expired; within the limit, an error exit status yields `RUN_TIME_ERROR`;
and only in the remaining case does control reach the output-validator
invocation. -/
theorem run_branch_structure (timelimit : ℚ) (args_error : Bool) (subRes : ExecResult)
    (vo : Option ExecResult) (n : ℕ) :
    (timelimit < subRes.duration →
       (Run.run timelimit args_error subRes vo n).judged.verdict = .TIME_LIMIT_EXCEEDED ∧
       (Run.run timelimit args_error subRes vo n).reached_validation = false ∧
       ((Run.run timelimit args_error subRes vo n).judged.print_verdict = "TLE (aborted)"
          ↔ subRes.timeout_expired = true)) ∧
    (¬ timelimit < subRes.duration → subRes.status = .ERROR →
       (Run.run timelimit args_error subRes vo n).judged.verdict = .RUN_TIME_ERROR ∧
       (Run.run timelimit args_error subRes vo n).reached_validation = false) ∧
    (¬ timelimit < subRes.duration → subRes.status ≠ .ERROR →
       (Run.run timelimit args_error subRes vo n).reached_validation = true) := by
  refine ⟨?_, ?_, ?_⟩
  · intro h1
    unfold Run.run
    rw [if_pos h1]
    refine ⟨rfl, rfl, ?_⟩
    cases hte : subRes.timeout_expired <;>
      simp [Judged.print_verdict, verdictName]
  · intro h1 h2
    unfold Run.run
    rw [if_neg h1, if_pos h2]
    exact ⟨rfl, rfl⟩
  · intro h1 h2
    cases vo with
    | none => simp [Run.run, h1, h2]
    | some v =>
        cases hst : v.status <;> simp [Run.run, h1, h2, hst, ExecStatus.toBool]

/-- Witness for C3: a run 1 second over a 2-second limit, killed by the
hard timeout, despite a nonzero exit status. -/
theorem run_branch_structure_witness :
    (Run.run 2 false ⟨.ERROR, some 1, 3, true, none, none⟩ none 0).judged.verdict
        = Verdict.TIME_LIMIT_EXCEEDED ∧
    ((Run.run 2 false ⟨.ERROR, some 1, 3, true, none, none⟩ none 0).judged.print_verdict
        = "TLE (aborted)" ↔ (true : Bool) = true) := by
  have h := (run_branch_structure 2 false ⟨.ERROR, some 1, 3, true, none, none⟩ none 0).1
    (by norm_num)
  exact ⟨h.1, h.2.2⟩

/-! ## C4 -/

/-- C4: when the output validator is invoked and returns a result, that
result replaces the submission's `ExecResult` — with its status mapped
accept / reject / other to `ACCEPTED` / `WRONG_ANSWER` /
`VALIDATOR_CRASH` — except that the `duration` field of the returned
result is the original submission run's duration, not the validator's. -/
theorem validator_result_replaces_keeps_duration (timelimit : ℚ) (args_error : Bool)
    (subRes v : ExecResult) (n : ℕ)
    (h1 : ¬ timelimit < subRes.duration) (h2 : subRes.status ≠ .ERROR) :
    (Run.run timelimit args_error subRes (some v) n).judged.result
        = { v with duration := subRes.duration } ∧
    (Run.run timelimit args_error subRes (some v) n).judged.result.duration
        = subRes.duration ∧
    (Run.run timelimit args_error subRes (some v) n).judged.verdict
        = (if v.status.toBool then Verdict.ACCEPTED
           else if v.status = .REJECTED then Verdict.WRONG_ANSWER
           else Verdict.VALIDATOR_CRASH) := by
  refine ⟨?_, ?_, ?_⟩ <;>
    · cases hst : v.status <;>
        simp [Run.run, h1, h2, hst, ExecStatus.toBool]

/-- Witness for C4: a validator that itself ran for 7 seconds judging a
1-second submission run; the reported duration stays 1. -/
theorem validator_result_replaces_keeps_duration_witness :
    (Run.run 2 false ⟨.ACCEPTED, some 0, 1, false, none, none⟩
        (some ⟨.REJECTED, some 43, 7, false, some "wrong", none⟩) 0).judged.result.duration
      = (1 : ℚ) ∧
    (Run.run 2 false ⟨.ACCEPTED, some 0, 1, false, none, none⟩
        (some ⟨.REJECTED, some 43, 7, false, some "wrong", none⟩) 0).judged.verdict
      = (if (ExecStatus.REJECTED).toBool then Verdict.ACCEPTED
         else if ExecStatus.REJECTED = ExecStatus.REJECTED then Verdict.WRONG_ANSWER
         else Verdict.VALIDATOR_CRASH) := by
  have h := validator_result_replaces_keeps_duration 2 false
    ⟨.ACCEPTED, some 0, 1, false, none, none⟩
    ⟨.REJECTED, some 43, 7, false, some "wrong", none⟩ 0
    (by norm_num) (by simp)
  exact ⟨h.2.1, h.2.2⟩

/-! ## C7 -/

/-- C7: a non-interactive testcase judgment increments the global error
counter exactly once when its verdict is `VALIDATOR_CRASH` — whether
because no output validator is configured or because the validator's exit
status was neither accept nor reject — and leaves the counter unchanged
for every other verdict; the counter is a piece of state separate from
the verdict itself. -/
theorem validator_crash_increments_error_counter (timelimit : ℚ) (args_error : Bool)
    (subRes : ExecResult) (vo : Option ExecResult) (n : ℕ) :
    (Run.run timelimit args_error subRes vo n).n_error
      = n + (if (Run.run timelimit args_error subRes vo n).judged.verdict
               = .VALIDATOR_CRASH then 1 else 0) := by
  by_cases h1 : timelimit < subRes.duration
  · simp [Run.run, h1]
  · by_cases h2 : subRes.status = .ERROR
    · simp [Run.run, h1, h2]
    · cases vo with
      | none => simp [Run.run, h1, h2]
      | some v =>
          cases hst : v.status <;> simp [Run.run, h1, h2, hst, ExecStatus.toBool]

/-! ## C8 -/

/-- C8: the aggregator aborts the remaining not-yet-run testcase
judgments — no further runs are started — if and only if a completed
result's verdict is in the maximal-priority class, verbose/table
reporting was not requested, and, when that verdict is
`TIME_LIMIT_EXCEEDED`, the run was killed by the hard timeout
(`timeout_expired`); in every other case judging continues through every
testcase. -/
theorem lazy_abort_iff (verbose table : Bool) (v : Verdict) (te : Bool)
    (rest js : List TCJudgment) :
    (lazyAbortDecision verbose table v te = true ↔
       ((verbose || table) = false ∧ v ∈ MAX_PRIORITY_VERDICT ∧
        (v = .TIME_LIMIT_EXCEEDED → te = true))) ∧
    (lazyAbortDecision verbose table v te = true →
       runQueue verbose table (⟨v, te⟩ :: rest) = [⟨v, te⟩]) ∧
    ((∀ j ∈ js, lazyAbortDecision verbose table j.verdict j.timeout_expired = false) →
       runQueue verbose table js = js) := by
  refine ⟨?_, ?_, ?_⟩
  · cases verbose <;> cases table <;> cases v <;> cases te <;> decide
  · intro h
    simp [runQueue, h]
  · intro h
    induction js with
    | nil => rfl
    | cons j js ih =>
        have hj := h j (List.mem_cons_self j js)
        simp only [runQueue, hj, Bool.false_eq_true, if_false]
        rw [ih (fun j' hj' => h j' (List.mem_cons_of_mem j hj'))]

/-- Witness for C8: a maximal-priority `TIME_LIMIT_EXCEEDED` killed by the
hard timeout aborts the queue (the second queued judgment is not run); the
same verdict from a mere soft-limit overshoot (`timeout_expired = false`)
does not, and judging continues through every testcase. -/
theorem lazy_abort_iff_witness :
    lazyAbortDecision false false .TIME_LIMIT_EXCEEDED true = true ∧
    runQueue false false [⟨.TIME_LIMIT_EXCEEDED, true⟩, ⟨.ACCEPTED, false⟩]
        = [⟨.TIME_LIMIT_EXCEEDED, true⟩] ∧
    runQueue false false [⟨.TIME_LIMIT_EXCEEDED, false⟩, ⟨.ACCEPTED, false⟩]
        = [⟨.TIME_LIMIT_EXCEEDED, false⟩, ⟨.ACCEPTED, false⟩] := by
  refine ⟨?_, ?_, ?_⟩
  · exact (lazy_abort_iff false false .TIME_LIMIT_EXCEEDED true [] []).1.mpr
      (by refine ⟨rfl, by decide, fun _ => rfl⟩)
  · exact (lazy_abort_iff false false .TIME_LIMIT_EXCEEDED true [⟨.ACCEPTED, false⟩] []).2.1
      (by decide)
  · exact (lazy_abort_iff false false .TIME_LIMIT_EXCEEDED false []
      [⟨.TIME_LIMIT_EXCEEDED, false⟩, ⟨.ACCEPTED, false⟩]).2.2 (by decide)

/-! ## C9 -/

/-- C9: the deletion of an oversized produced-output file happens after
the verdict is computed and never feeds back into it: the judged result
(verdict, result fields, error counter) is identical for every output-file
state, equals the result of the run without cleanup, and the file is
deleted exactly when `--error` was not passed and its size exceeds the
single fixed byte threshold `1_000_000_000`. -/
theorem out_file_cleanup_frame (timelimit : ℚ) (args_error : Bool) (subRes : ExecResult)
    (vo : Option ExecResult) (n : ℕ) (o1 o2 : Option ℕ) (size : ℕ) :
    (Run.runWithCleanup timelimit args_error subRes vo n o1).1
        = (Run.runWithCleanup timelimit args_error subRes vo n o2).1 ∧
    (Run.runWithCleanup timelimit args_error subRes vo n o1).1
        = Run.run timelimit args_error subRes vo n ∧
    ((Run.runWithCleanup timelimit args_error subRes vo n (some size)).2 = none
        ↔ args_error = false ∧ 1000000000 < size) := by
  refine ⟨rfl, rfl, ?_⟩
  cases args_error with
  | false =>
      by_cases hs : 1000000000 < size
      · simp [Run.runWithCleanup, hs]
      · simp [Run.runWithCleanup, hs]
  | true => simp [Run.runWithCleanup]

/-! ## Helper lemmas: erasing directory entries by name -/

/-- After erasing the entry at path `n` from a directory with distinct
entry names, no entry named `n` remains. -/
theorem name_not_mem_eraseP {l : FeedbackDir} (hnd : (l.map FsEntry.name).Nodup)
    (n : String) : ∀ e ∈ l.eraseP (fun x => x.name == n), e.name ≠ n := by
  induction l with
  | nil => intro e he; exact absurd he (List.not_mem_nil e)
  | cons x l ih =>
      rw [List.map_cons, List.nodup_cons] at hnd
      obtain ⟨hx, hnd'⟩ := hnd
      by_cases hb : ((fun x : FsEntry => x.name == n) x : Bool)
      · rw [List.eraseP_cons_of_pos (p := fun x : FsEntry => x.name == n) hb]
        intro e he hcon
        have hxn : x.name = n := by rwa [beq_iff_eq] at hb
        exact hx (by rw [hxn, ← hcon]; exact List.mem_map_of_mem FsEntry.name he)
      · rw [List.eraseP_cons_of_neg (p := fun x : FsEntry => x.name == n) hb]
        intro e he
        rcases List.mem_cons.mp he with rfl | he
        · intro hcon; exact hb (by rwa [beq_iff_eq])
        · exact ih hnd' e he

/-- Both branches of the cleaning loop body remove the entry at that
name. -/
theorem cleanStep_eq (acc : FeedbackDir) (f : FsEntry) :
    cleanStep acc f = acc.eraseP (fun e => e.name == f.name) := by
  unfold cleanStep unlinkName rmtreeName
  split <;> rfl

/-- The cleaning loop of `Run.__init__` empties its accumulator whenever
all accumulator entry names are distinct and occur among the names
iterated over. -/
theorem foldl_cleanStep_eq_nil (l : List FsEntry) :
    ∀ acc : FeedbackDir, (acc.map FsEntry.name).Nodup →
      (∀ e ∈ acc, e.name ∈ l.map FsEntry.name) → l.foldl cleanStep acc = [] := by
  induction l with
  | nil =>
      intro acc _ hsub
      rcases acc with _ | ⟨e, acc⟩
      · rfl
      · exact absurd (hsub e (List.mem_cons_self e acc)) (List.not_mem_nil e.name)
  | cons f l ih =>
      intro acc hnd hsub
      rw [List.foldl_cons, cleanStep_eq]
      have hsl : List.Sublist (acc.eraseP (fun e => e.name == f.name)) acc :=
        List.eraseP_sublist acc
      refine ih _ ((hsl.map FsEntry.name).nodup hnd) ?_
      intro e he
      have hemem : e ∈ acc := hsl.subset he
      rcases List.mem_cons.mp (hsub e hemem) with hf | hl
      · exact absurd hf (name_not_mem_eraseP hnd f.name e he)
      · exact hl

/-! ## C6 -/

/-- C6: constructing a `Run` leaves the testcase's feedback directory
existing (the function totally returns a directory state; `mkdir` creates
it when absent) and empty — every file and subdirectory is removed — so a
second judgment of the same testcase starts from a feedback directory
containing no entry of the first run. -/
theorem init_feedbackdir_empty (st : Option FeedbackDir)
    (hnd : ((st.getD []).map FsEntry.name).Nodup) :
    Run.initFeedbackdir st = [] := by
  unfold Run.initFeedbackdir
  exact foldl_cleanStep_eq_nil _ _ hnd (fun e he => List.mem_map_of_mem FsEntry.name he)

/-- Witness for C6: a directory still holding a judge-message file and a
subdirectory from a previous run is emptied. -/
theorem init_feedbackdir_empty_witness :
    Run.initFeedbackdir
        (some [⟨"judgemessage.txt", true, "old text"⟩, ⟨"details", false, ""⟩]) = [] :=
  init_feedbackdir_empty
    (some [⟨"judgemessage.txt", true, "old text"⟩, ⟨"details", false, ""⟩]) (by decide)

/-- Erasing entries satisfying `p` does not change a `find?` for a
predicate `q` that no `p`-entry satisfies. -/
theorem find?_eraseP_of_disjoint {p q : FsEntry → Bool}
    (h : ∀ e, p e = true → q e = false) :
    ∀ l : List FsEntry, (l.eraseP p).find? q = l.find? q := by
  intro l
  induction l with
  | nil => rfl
  | cons x l ih =>
      by_cases hp : p x
      · rw [List.eraseP_cons_of_pos hp,
          List.find?_cons_of_neg l (by rw [h x hp]; exact Bool.false_ne_true)]
      · rw [List.eraseP_cons_of_neg hp]
        by_cases hq : q x
        · rw [List.find?_cons_of_pos _ hq, List.find?_cons_of_pos _ hq]
        · rw [List.find?_cons_of_neg _ hq, List.find?_cons_of_neg _ hq, ih]

/-- Removing the entry at one path leaves lookups of a different path
unchanged. -/
theorem findFile_unlinkName_other {d : FeedbackDir} {n m : String} (hnm : n ≠ m) :
    findFile (unlinkName d n) m = findFile d m := by
  unfold findFile unlinkName
  rw [find?_eraseP_of_disjoint]
  intro e hp
  have hen : e.name = n := by rwa [beq_iff_eq] at hp
  rw [hen, beq_eq_false_iff_ne.mpr hnm, Bool.false_and]

/-- With a single configured output validator, the header prepended on
line 107 is empty, so the final `ret.err` is whatever the feedback files
left. -/
theorem finalErr_single_validator (vName s : String) :
    (if s ≠ "" then (if 1 < (1 : ℕ) then vName ++ ": " else "") ++ s else s) = s := by
  rw [if_neg (by norm_num : ¬ (1 : ℕ) < 1)]
  by_cases h : s = ""
  · rw [if_neg (fun hn => hn h)]
  · rw [if_pos h]
    rfl

/-! ## C5 -/

/-- C5: after a validator invocation (with the single configured output
validator), a judge-message file in the feedback directory is appended to
the validator's stderr, a judge-error file replaces the accumulated stderr
entirely — including any appended judge message — and each of the two
files, whenever it was present and read, is deleted from the directory. -/
theorem validate_output_feedback_spec (vName : String) (err0 : Option String)
    (d : FeedbackDir) (hnd : (d.map FsEntry.name).Nodup) :
    (∀ te, findFile d "judgeerror.txt" = some te →
        (Run.validate_output_feedback vName 1 err0 d).1 = te) ∧
    (∀ tm, findFile d "judgeerror.txt" = none → findFile d "judgemessage.txt" = some tm →
        (Run.validate_output_feedback vName 1 err0 d).1 = err0.getD "" ++ tm) ∧
    (∀ tm, findFile d "judgemessage.txt" = some tm →
        ∀ e ∈ (Run.validate_output_feedback vName 1 err0 d).2,
          e.name ≠ "judgemessage.txt") ∧
    (∀ te, findFile d "judgeerror.txt" = some te →
        ∀ e ∈ (Run.validate_output_feedback vName 1 err0 d).2,
          e.name ≠ "judgeerror.txt") := by
  have hne : ("judgemessage.txt" : String) ≠ "judgeerror.txt" := by decide
  rcases hjm : findFile d "judgemessage.txt" with _ | tm
  · rcases hje : findFile d "judgeerror.txt" with _ | te
    · -- neither file present
      refine ⟨?_, ?_, ?_, ?_⟩
      · intro te h; exact Option.noConfusion h
      · intro tm h1 h2; exact Option.noConfusion h2
      · intro tm h; exact Option.noConfusion h
      · intro te h; exact Option.noConfusion h
    · -- only the judge-error file present
      have hres : Run.validate_output_feedback vName 1 err0 d
          = ((if te ≠ "" then (if 1 < (1 : ℕ) then vName ++ ": " else "") ++ te else te),
             unlinkName d "judgeerror.txt") := by
        simp only [Run.validate_output_feedback, hjm, hje]
      refine ⟨?_, ?_, ?_, ?_⟩
      · intro te' h
        cases h
        rw [hres, finalErr_single_validator]
      · intro tm h1 h2; exact Option.noConfusion h2
      · intro tm h; exact Option.noConfusion h
      · intro te' h e he
        rw [hres] at he
        exact name_not_mem_eraseP hnd "judgeerror.txt" e he
  · rcases hje : findFile d "judgeerror.txt" with _ | te
    · -- only the judge-message file present
      have hje' : findFile (unlinkName d "judgemessage.txt") "judgeerror.txt" = none := by
        rw [findFile_unlinkName_other hne, hje]
      have hres : Run.validate_output_feedback vName 1 err0 d
          = ((if err0.getD "" ++ tm ≠ ""
                then (if 1 < (1 : ℕ) then vName ++ ": " else "") ++ (err0.getD "" ++ tm)
                else err0.getD "" ++ tm),
             unlinkName d "judgemessage.txt") := by
        simp only [Run.validate_output_feedback, hjm, hje']
      refine ⟨?_, ?_, ?_, ?_⟩
      · intro te h; exact Option.noConfusion h
      · intro tm' h1 h2
        cases h2
        rw [hres, finalErr_single_validator]
      · intro tm' h e he
        rw [hres] at he
        exact name_not_mem_eraseP hnd "judgemessage.txt" e he
      · intro te h; exact Option.noConfusion h
    · -- both files present
      have hje' : findFile (unlinkName d "judgemessage.txt") "judgeerror.txt" = some te := by
        rw [findFile_unlinkName_other hne, hje]
      have hres : Run.validate_output_feedback vName 1 err0 d
          = ((if te ≠ "" then (if 1 < (1 : ℕ) then vName ++ ": " else "") ++ te else te),
             unlinkName (unlinkName d "judgemessage.txt") "judgeerror.txt") := by
        simp only [Run.validate_output_feedback, hjm, hje']
      have hndm : ((unlinkName d "judgemessage.txt").map FsEntry.name).Nodup := by
        unfold unlinkName
        exact ((List.eraseP_sublist d).map FsEntry.name).nodup hnd
      refine ⟨?_, ?_, ?_, ?_⟩
      · intro te' h
        cases h
        rw [hres, finalErr_single_validator]
      · intro tm' h1 h2; exact Option.noConfusion h1
      · intro tm' h e he
        rw [hres] at he
        have hmem : e ∈ unlinkName d "judgemessage.txt" := List.eraseP_subset _ he
        exact name_not_mem_eraseP hnd "judgemessage.txt" e hmem
      · intro te' h e he
        rw [hres] at he
        exact name_not_mem_eraseP hndm "judgeerror.txt" e he

/-- Witness for C5: both feedback files present; the judge-error text
replaces the stderr with the appended judge message, and both files are
gone. -/
theorem validate_output_feedback_spec_witness :
    (Run.validate_output_feedback "validator" 1 (some "diag")
        [⟨"judgemessage.txt", true, "msg"⟩, ⟨"judgeerror.txt", true, "boom"⟩]).1 = "boom" ∧
    (∀ e ∈ (Run.validate_output_feedback "validator" 1 (some "diag")
        [⟨"judgemessage.txt", true, "msg"⟩, ⟨"judgeerror.txt", true, "boom"⟩]).2,
      e.name ≠ "judgeerror.txt") := by
  have h := validate_output_feedback_spec "validator" (some "diag")
    [⟨"judgemessage.txt", true, "msg"⟩, ⟨"judgeerror.txt", true, "boom"⟩] (by decide)
  exact ⟨h.1 "boom" (by decide), h.2.2.2 "boom" (by decide)⟩

/-! ## C10 -/

/-- C10: the expected-verdicts list computed for a submission is never
empty; a submission sitting in a `submissions/<VERDICT>/` directory whose
(upper-cased) name is a known verdict gets exactly that one verdict, with
any `@EXPECTED_RESULTS@` annotation ignored and a warning counted;
otherwise, when no valid annotation is found in any source file, the list
defaults to exactly `['ACCEPTED']`. -/
theorem get_expected_verdicts_spec (files : List (Option (List String)))
    (pathParts : List String) (shortPathHead : String) (nE nW : ℕ) :
    (get_expected_verdicts files pathParts shortPathHead nE nW).1 ≠ [] ∧
    ((3 ≤ pathParts.length ∧ pathParts.getD (pathParts.length - 3) "" = "submissions") →
       strUpper shortPathHead ∈ VERDICTS →
       (get_expected_verdicts files pathParts shortPathHead nE nW).1
           = [strUpper shortPathHead] ∧
       ((scanExpectedResults files nE).1 ≠ [] →
          (get_expected_verdicts files pathParts shortPathHead nE nW).2.2 = nW + 1)) ∧
    (¬ ((3 ≤ pathParts.length ∧ pathParts.getD (pathParts.length - 3) "" = "submissions") ∧
          strUpper shortPathHead ∈ VERDICTS) →
       (scanExpectedResults files nE).1 = [] →
       (get_expected_verdicts files pathParts shortPathHead nE nW).1 = ["ACCEPTED"]) := by
  refine ⟨?_, ?_, ?_⟩
  · by_cases hdir : 3 ≤ pathParts.length ∧ pathParts.getD (pathParts.length - 3) "" = "submissions"
    · have hd2 : pathParts[pathParts.length - 3]?.getD "" = "submissions" := by
        simpa [List.getD] using hdir.2
      by_cases hsub : strUpper shortPathHead ∈ VERDICTS
      · simp [get_expected_verdicts, hdir.1, hd2, hsub]
      · by_cases hscan : (scanExpectedResults files nE).1 = []
        · simp [get_expected_verdicts, hdir.1, hd2, hsub, hscan]
        · simp [get_expected_verdicts, hdir.1, hd2, hsub,
            List.length_eq_zero, hscan]
    · have hd2 : ¬ (3 ≤ pathParts.length ∧
          pathParts[pathParts.length - 3]?.getD "" = "submissions") := by
        simpa [List.getD] using hdir
      by_cases hscan : (scanExpectedResults files nE).1 = []
      · simp [get_expected_verdicts, hd2, hscan]
      · simp [get_expected_verdicts, hd2, List.length_eq_zero, hscan]
  · intro hdir hsub
    have hd2 : pathParts[pathParts.length - 3]?.getD "" = "submissions" := by
      simpa [List.getD] using hdir.2
    by_cases hscan : (scanExpectedResults files nE).1 = []
    · simp [get_expected_verdicts, hdir.1, hd2, hsub, hscan]
    · have hlen : (scanExpectedResults files nE).1.length ≠ 0 := by
        simpa [List.length_eq_zero] using hscan
      simp [get_expected_verdicts, hdir.1, hd2, hsub, hlen, hscan]
  · intro hnot hscan
    by_cases hdir : 3 ≤ pathParts.length ∧ pathParts.getD (pathParts.length - 3) "" = "submissions"
    · have hd2 : pathParts[pathParts.length - 3]?.getD "" = "submissions" := by
        simpa [List.getD] using hdir.2
      have hsub : ¬ strUpper shortPathHead ∈ VERDICTS := fun hs => hnot ⟨hdir, hs⟩
      simp [get_expected_verdicts, hdir.1, hd2, hsub, hscan]
    · have hd2 : ¬ (3 ≤ pathParts.length ∧
          pathParts[pathParts.length - 3]?.getD "" = "submissions") := by
        simpa [List.getD] using hdir
      simp [get_expected_verdicts, hd2, hscan]

/-- Witness for C10: a submission in `submissions/run_time_error/` with a
conflicting `@EXPECTED_RESULTS@: CORRECT` annotation gets exactly
`['RUN_TIME_ERROR']` and one warning; a free-standing submission without
annotations defaults to `['ACCEPTED']`. -/
theorem get_expected_verdicts_spec_witness :
    (get_expected_verdicts [some ["CORRECT"]]
        ["prob", "submissions", "run_time_error", "sol.py"] "run_time_error" 0 0).1
      = [strUpper "run_time_error"] ∧
    (get_expected_verdicts [some ["CORRECT"]]
        ["prob", "submissions", "run_time_error", "sol.py"] "run_time_error" 0 0).2.2
      = 0 + 1 ∧
    (get_expected_verdicts [none] ["prob", "sol.py"] "sol.py" 0 0).1 = ["ACCEPTED"] := by
  have h1 := (get_expected_verdicts_spec [some ["CORRECT"]]
    ["prob", "submissions", "run_time_error", "sol.py"] "run_time_error" 0 0).2.1
    (by constructor <;> decide) (by decide)
  have h2 := (get_expected_verdicts_spec [none] ["prob", "sol.py"] "sol.py" 0 0).2.2
    (by intro h; exact absurd h.1.1 (by decide)) (by decide)
  exact ⟨h1.1, h1.2 (by decide), h2⟩

end BAPC
